import Mathlib

/-!
Verification of the NetworkBaseballGame server against its specification.

The repository contains two game variants sharing a framing/registry core:
a real-time "world" simulator (`game_logic.c`, `protocol.h`, `server.c`) and
a turn-based "duel" number-guessing game (`baseball_protocol.h`,
`baseball_server.c`).  This file gives a shallow embedding of the rule
engines, the session state machine and the connection registry, and proves
the specification's claims about them.

Modelling conventions:
* C `int` fields are `Int`; array indices passed by the server's own loops
  are `Nat`.
* Fixed-capacity C arrays with an explicit count (`units[100]`/`unit_count`,
  `players[MAX_CLIENTS]`) are Lean lists whose length plays the role of the
  count; C's unchecked indexing is modelled with `List.getD`/`List.set`.
* Functions returning `0`/`-1` become `Option`-valued: `none` is `-1`.  All
  failing paths of the C functions return before any mutation, so a `none`
  result faithfully corresponds to an unchanged game state.
* Randomness (`rand()`) and wall-clock time (`time`, `current_millis`) are
  passed in as explicit parameters.
* Socket sends are modelled as an output list of (recipient, message); the
  transport itself is outside the embedding and sends are taken to succeed,
  in which case the C code refreshes the recipient's activity timestamp.
-/

namespace World

/-- `MAX_CLIENTS` of `protocol.h` (world variant). -/
def MAX_CLIENTS : Nat := 8

/-- `MAP_WIDTH` of `protocol.h`. -/
def MAP_WIDTH : Int := 16

/-- `MAP_HEIGHT` of `protocol.h`. -/
def MAP_HEIGHT : Int := 16

/-- Tile kinds, `TileType` of `game_logic.h`. -/
inductive TileType where
  | TILE_EMPTY
  | TILE_RESOURCE
  | TILE_BASE
  | TILE_TOWER
deriving DecidableEq, Repr

/-- Unit kinds, `UnitType` of `game_logic.h`. -/
inductive UnitType where
  | UNIT_WORKER
  | UNIT_SOLDIER
  | UNIT_TANK
  | UNIT_DRONE
deriving DecidableEq, Repr

/-- `Unit` of `game_logic.h`. -/
structure Unit where
  unit_id : Int
  owner_id : Int
  type : UnitType
  x : Int
  y : Int
  hp : Int
  attack : Int
  defense : Int
  moving : Int
deriving DecidableEq, Repr

instance : Inhabited Unit :=
  ⟨⟨0, 0, .UNIT_WORKER, 0, 0, 0, 0, 0, 0⟩⟩

/-- `Building` of `game_logic.h`. -/
structure Building where
  building_id : Int
  owner_id : Int
  type : TileType
  x : Int
  y : Int
  hp : Int
deriving DecidableEq, Repr

/-- `PlayerState` of `game_logic.h`; the `unit_count`/`building_count`
fields are the lengths of the lists. -/
structure PlayerState where
  player_id : Int
  country : Int
  base_x : Int
  base_y : Int
  units : List Unit
  buildings : List Building
deriving DecidableEq, Repr

instance : Inhabited PlayerState :=
  ⟨⟨0, 0, -1, -1, [], []⟩⟩

/-- `GameState` of `game_logic.h`.  `map` is row-major: `map[y][x]`. -/
structure GameState where
  last_update : Int
  player_num : Int
  players : List PlayerState
  map : List (List TileType)
  event_flag : Int
deriving DecidableEq, Repr

instance : Inhabited GameState :=
  ⟨⟨0, 0, [], [], 0⟩⟩

/-- Read `state->players[pid]`. -/
def playerAt (s : GameState) (pid : Nat) : PlayerState :=
  s.players.getD pid default

/-- Read `state->map[y][x]`. -/
def tileAt (s : GameState) (x y : Int) : TileType :=
  (s.map.getD y.toNat []).getD x.toNat .TILE_EMPTY

/-- Write `state->map[y][x] = t`. -/
def setTile (s : GameState) (x y : Int) (t : TileType) : GameState :=
  { s with map := s.map.set y.toNat ((s.map.getD y.toNat []).set x.toNat t) }

/-- Write `state->players[pid] = p`. -/
def setPlayer (s : GameState) (pid : Nat) (p : PlayerState) : GameState :=
  { s with players := s.players.set pid p }

/-- `init_game_state` of `game_logic.c`.  `init_map`'s random resource
placement is modelled by passing the generated map in, and `time(NULL)` by
taking `last_update` to be `0`. -/
def init_game_state (m : List (List TileType)) : GameState :=
  { last_update := 0
    player_num := 0
    event_flag := 0
    map := m
    players := (List.range MAX_CLIENTS).map fun i =>
      { player_id := (i : Int), country := 0, base_x := -1, base_y := -1,
        units := [], buildings := [] } }

/-- `place_base` of `game_logic.c`. -/
def place_base (s : GameState) (player_id : Nat) (x y : Int) :
    Option GameState :=
  if x < 0 ∨ MAP_WIDTH ≤ x ∨ y < 0 ∨ MAP_HEIGHT ≤ y then none
  else if tileAt s x y ≠ .TILE_EMPTY then none
  else if (playerAt s player_id).base_x ≠ -1 then none
  else
    let ps := playerAt s player_id
    let b : Building :=
      { building_id := (player_id : Int) * 100 + (ps.buildings.length : Int)
        owner_id := (player_id : Int)
        type := .TILE_BASE
        x := x, y := y, hp := 100 }
    some (setPlayer (setTile s x y .TILE_BASE) player_id
      { ps with base_x := x, base_y := y, buildings := ps.buildings ++ [b] })

/-- The fixed (hp, attack, defense) table of `produce_unit`'s `switch`. -/
def unit_stats : UnitType → Int × Int × Int
  | .UNIT_WORKER => (30, 5, 2)
  | .UNIT_SOLDIER => (50, 10, 5)
  | .UNIT_TANK => (100, 20, 15)
  | .UNIT_DRONE => (20, 15, 1)

/-- The `(dx, dy)` pairs visited by `produce_unit`'s nested loop
(`dy` outer, `dx` inner, both from `-1` to `1`); note it includes `(0,0)`,
the base's own cell. -/
def scan_offsets : List (Int × Int) :=
  [(-1, -1), (0, -1), (1, -1), (-1, 0), (0, 0), (1, 0), (-1, 1), (0, 1), (1, 1)]

/-- Bounds test of the C scan: `0 <= x < MAP_WIDTH && 0 <= y < MAP_HEIGHT`. -/
def in_bounds (x y : Int) : Bool :=
  decide (0 ≤ x) && decide (x < MAP_WIDTH) && decide (0 ≤ y) && decide (y < MAP_HEIGHT)

/-- The spawn-position search of `produce_unit`: first in-bounds `TILE_EMPTY`
cell in `scan_offsets` order around `(bx, by)`. -/
def find_spawn (s : GameState) (bx byc : Int) : Option (Int × Int) :=
  (scan_offsets.map fun d => (bx + d.1, byc + d.2)).find? fun c =>
    in_bounds c.1 c.2 && (tileAt s c.1 c.2 == .TILE_EMPTY)

/-- `produce_unit` of `game_logic.c`. -/
def produce_unit (s : GameState) (player_id : Nat) (t : UnitType) :
    Option GameState :=
  let ps := playerAt s player_id
  if ps.base_x < 0 then none
  else
    match find_spawn s ps.base_x ps.base_y with
    | none => none
    | some c =>
      let st := unit_stats t
      let u : Unit :=
        { unit_id := (player_id : Int) * 100 + (ps.units.length : Int)
          owner_id := (player_id : Int)
          type := t
          x := c.1, y := c.2
          hp := st.1, attack := st.2.1, defense := st.2.2
          moving := 0 }
      some (setPlayer s player_id { ps with units := ps.units ++ [u] })

/-- `move_unit` of `game_logic.c`.  The C loop keeps scanning past a unit
whose id matches but which fails the adjacency or destination test, so the
moved unit is the first one satisfying all three conditions. -/
def move_unit (s : GameState) (player_id : Nat) (unit_id : Int)
    (new_x new_y : Int) : Option GameState :=
  if new_x < 0 ∨ MAP_WIDTH ≤ new_x ∨ new_y < 0 ∨ MAP_HEIGHT ≤ new_y then none
  else
    let ps := playerAt s player_id
    match ps.units.findIdx? (fun u =>
        u.unit_id == unit_id
        && ((new_x - u.x).natAbs + (new_y - u.y).natAbs == 1)
        && (tileAt s new_x new_y == .TILE_EMPTY)) with
    | none => none
    | some i =>
      let u := ps.units.getD i default
      some (setPlayer s player_id
        { ps with units := ps.units.set i { u with x := new_x, y := new_y, moving := 1 } })

/-- The target search of `attack_unit`: scan all players in id order, first
unit whose `unit_id` matches; returns (player index, unit index). -/
def find_target : List PlayerState → Int → Option (Nat × Nat)
  | [], _ => none
  | p :: rest, tid =>
    match p.units.findIdx? (fun u => u.unit_id == tid) with
    | some i => some (0, i)
    | none => (find_target rest tid).map fun r => (r.1 + 1, r.2)

/-- The destroyed-unit removal of `attack_unit`: find the first unit with
the target id in the owner's list and remove it by overwriting it with the
last unit and shrinking the count. -/
def remove_dead_unit (s : GameState) (owner : Int) (target_id : Int) :
    GameState :=
  let tps := playerAt s owner.toNat
  match tps.units.findIdx? (fun u => u.unit_id == target_id) with
  | none => s
  | some idx =>
    let l := tps.units
    setPlayer s owner.toNat
      { tps with units := (l.set idx (l.getD (l.length - 1) default)).take (l.length - 1) }

/-- `attack_unit` of `game_logic.c`. -/
def attack_unit (s : GameState) (player_id : Nat) (attacker_id target_id : Int) :
    Option GameState :=
  match (playerAt s player_id).units.find? (fun u => u.unit_id == attacker_id) with
  | none => none
  | some att =>
    match find_target s.players target_id with
    | none => none
    | some ti =>
      let tgt := (playerAt s ti.1).units.getD ti.2 default
      if (att.x - tgt.x).natAbs + (att.y - tgt.y).natAbs ≠ 1 then none
      else
        let damage := if att.attack - tgt.defense < 1 then 1 else att.attack - tgt.defense
        let tgt' := { tgt with hp := tgt.hp - damage }
        let s1 := setPlayer s ti.1
          { playerAt s ti.1 with units := (playerAt s ti.1).units.set ti.2 tgt' }
        if tgt'.hp ≤ 0 then some (remove_dead_unit s1 tgt.owner_id target_id)
        else some s1

/-- `is_base_destroyed` of `game_logic.c`: true iff the player has no
`TILE_BASE` building with positive hp. -/
def is_base_destroyed (s : GameState) (pid : Nat) : Bool :=
  !((playerAt s pid).buildings.any fun b => b.type == .TILE_BASE && decide (0 < b.hp))

/-- The live-base count computed by `update_game`'s loop (and recomputed by
`main`'s timeout branch in `server.c`): players with a placed,
non-destroyed base. -/
def alive_count (s : GameState) : Nat :=
  ((List.range MAX_CLIENTS).filter fun i =>
    ((playerAt s i).base_x != -1) && !(is_base_destroyed s i)).length

/-- `trigger_event` of `game_logic.c`; `current_millis()` is the `now_ms`
parameter and `rand() % 100` is `r % 100`. -/
def trigger_event (s : GameState) (now_ms : Int) (r : Nat) : GameState :=
  if 10000 ≤ now_ms - s.last_update * 1000 then
    { s with
      event_flag := if r % 100 < 20 then 1 else if r % 100 < 40 then 2 else 0
      last_update := now_ms / 1000 }
  else s

/-- `update_game` of `game_logic.c`.  The C function's `static int
ever_had_two_bases` is threaded explicitly; `time(NULL)` in the terminal
branch is the `tnow` parameter.  Returns the new state and the new value of
`ever_had_two_bases`. -/
def update_game (s : GameState) (ever_had_two_bases : Bool) (now_ms : Int)
    (r : Nat) (tnow : Int) : GameState × Bool :=
  let s1 := trigger_event s now_ms r
  let alive := alive_count s1
  if 2 ≤ alive then
    ({ s1 with event_flag := if s1.event_flag = 99 then 0 else s1.event_flag }, true)
  else if alive = 1 ∧ ever_had_two_bases then
    ({ s1 with event_flag := 99, last_update := tnow }, ever_had_two_bases)
  else
    ({ s1 with event_flag := 0 }, ever_had_two_bases)

/-- The timeout branch of `main` in `server.c` (lines 373-390): run
`update_game`, recompute the live-base count, and fire the `game_over`
broadcast (followed by `break`, halting the process) exactly when
`alive_count >= 2 && event_flag == 99`.  The returned `Bool` is whether the
broadcast-and-halt fired. -/
def server_tick (s : GameState) (ever : Bool) (now_ms : Int) (r : Nat)
    (tnow : Int) : (GameState × Bool) × Bool :=
  let su := update_game s ever now_ms r tnow
  (su, decide (2 ≤ alive_count su.1) && (su.1.event_flag == 99))

end World

namespace Duel

/-- `MAX_CLIENTS` of `baseball_protocol.h` (duel variant): 1-vs-1. -/
def MAX_CLIENTS : Nat := 2

/-- `NUMBER_LENGTH` of `baseball_protocol.h`. -/
def NUMBER_LENGTH : Nat := 3

/-- `GameState` of `baseball_protocol.h` (the session lifecycle enum). -/
inductive GameState where
  | GAME_WAITING
  | GAME_SETTING
  | GAME_PLAYING
  | GAME_FINISHED
deriving DecidableEq, Repr

/-- `PlayerState` of `baseball_protocol.h` (per-player sub-state). -/
inductive PlayerState where
  | PLAYER_WAITING
  | PLAYER_SETTING
  | PLAYER_READY
  | PLAYER_TURN
  | PLAYER_WAITING_TURN
deriving DecidableEq, Repr

/-- `PlayerInfo` of `baseball_protocol.h`.  The socket fd is transport
detail and is not modelled; timestamps are abstract `Int` time units. -/
structure PlayerInfo where
  player_id : Int
  connected : Bool
  state : PlayerState
  secret_number : String
  attempts : Int
  is_winner : Bool
  last_activity : Int
  retry_count : Int
deriving DecidableEq, Repr

instance : Inhabited PlayerInfo :=
  ⟨⟨0, false, .PLAYER_WAITING, "", 0, false, 0, 0⟩⟩

/-- `GameManager` of `baseball_protocol.h`.  `players_ready` is a C `int`
(it is decremented and clamped at zero), hence `Int`. -/
structure GameManager where
  state : GameState
  players : List PlayerInfo
  current_turn : Int
  players_ready : Int
  game_start_time : Int
  last_heartbeat : Int
deriving DecidableEq, Repr

/-- Read `game.players[pid]`. -/
def playerAt (g : GameManager) (pid : Nat) : PlayerInfo :=
  g.players.getD pid default

/-- Server-to-client messages used by `baseball_server.c` (free-text
human-readable `message` fields are not part of the core and are omitted
from the payloads that carry game data). -/
inductive Msg where
  | error (message : String)
  | assign_id (player_id : Int)
  | wait_player
  | game_start
  | number_set
  | your_turn
  | wait_turn
  | guess_result (guess : String) (strikes balls : Nat) (attempts : Int)
      (current_player : Int)
  | game_over (result : String) (your_number opponent_number : String)
deriving DecidableEq, Repr

/-- `GuessResult` of `baseball_protocol.h`.  The counters are C `int`s that
only ever hold non-negative counts, modelled as `Nat`. -/
structure GuessResult where
  strikes : Nat
  balls : Nat
  is_correct : Bool
deriving DecidableEq, Repr

/-- `is_valid_number` of `baseball_protocol.h`: exactly 3 characters, all
decimal digits, pairwise distinct. -/
def is_valid_number (number : String) : Bool :=
  let l := number.data
  (l.length == NUMBER_LENGTH)
  && l.all (fun c => decide ('0' ≤ c) && decide (c ≤ '9'))
  && ((List.range NUMBER_LENGTH).all fun i =>
        (List.range NUMBER_LENGTH).all fun j =>
          !(decide (i < j)) || (l.getD i ' ' != l.getD j ' '))

/-- `calculate_result` of `baseball_protocol.h`.  Strikes: same digit, same
position.  Balls: for each non-strike position `i`, one ball if some other
position `j` has `secret[i] == guess[j]` and `secret[j] != guess[j]` (the C
`break` caps this at one ball per `i`, modelled by `any`). -/
def calculate_result (secret guess : List Char) : GuessResult :=
  let strikes := ((List.range NUMBER_LENGTH).filter fun i =>
    secret.getD i ' ' == guess.getD i ' ').length
  let balls := ((List.range NUMBER_LENGTH).filter fun i =>
    (secret.getD i ' ' != guess.getD i ' ')
    && (List.range NUMBER_LENGTH).any fun j =>
        (i != j) && (secret.getD i ' ' == guess.getD j ' ')
        && (secret.getD j ' ' != guess.getD j ' ')).length
  { strikes := strikes, balls := balls, is_correct := strikes == NUMBER_LENGTH }

/-- `send_to_player` of `baseball_server.c`: no-op on an invalid or
disconnected id; otherwise deliver the message and refresh the recipient's
activity timestamp (the send is taken to succeed, see file header). -/
def send_to_player (g : GameManager) (pid : Nat) (m : Msg) (now : Int) :
    GameManager × List (Nat × Msg) :=
  if pid < g.players.length ∧ (playerAt g pid).connected then
    ({ g with players := g.players.set pid { playerAt g pid with last_activity := now } },
     [(pid, m)])
  else (g, [])

/-- `broadcast_to_all` of `baseball_server.c`: send to every connected
player, refreshing each recipient's activity timestamp. -/
def broadcast_to_all (g : GameManager) (m : Msg) (now : Int) :
    GameManager × List (Nat × Msg) :=
  (List.range g.players.length).foldl (fun acc i =>
    if (playerAt acc.1 i).connected then
      ({ acc.1 with players := acc.1.players.set i { playerAt acc.1 i with last_activity := now } },
       acc.2 ++ [(i, m)])
    else acc) (g, [])

/-- `start_turn` of `baseball_server.c`: tell the current-turn player
"your turn" (state `PLAYER_TURN`) and the other connected players "wait"
(state `PLAYER_WAITING_TURN`). -/
def start_turn (g : GameManager) (now : Int) : GameManager × List (Nat × Msg) :=
  (List.range g.players.length).foldl (fun acc i =>
    if (playerAt acc.1 i).connected then
      if (i : Int) = acc.1.current_turn then
        let g1 := { acc.1 with
          players := acc.1.players.set i { playerAt acc.1 i with state := .PLAYER_TURN } }
        let r := send_to_player g1 i .your_turn now
        (r.1, acc.2 ++ r.2)
      else
        let g1 := { acc.1 with
          players := acc.1.players.set i { playerAt acc.1 i with state := .PLAYER_WAITING_TURN } }
        let r := send_to_player g1 i .wait_turn now
        (r.1, acc.2 ++ r.2)
    else acc) (g, [])

/-- `start_game` of `baseball_server.c`. -/
def start_game (g : GameManager) (now : Int) : GameManager × List (Nat × Msg) :=
  if g.state ≠ .GAME_WAITING ∨ g.players_ready < 2 then (g, [])
  else
    let g1 := { g with state := .GAME_SETTING }
    let r := broadcast_to_all g1 .game_start now
    let ps := r.1.players.map fun p =>
      if p.connected then { p with state := PlayerState.PLAYER_SETTING } else p
    ({ r.1 with players := ps }, r.2)

/-- `check_all_numbers_set` of `baseball_server.c`. -/
def check_all_numbers_set (g : GameManager) (now : Int) :
    GameManager × List (Nat × Msg) :=
  let ready := (g.players.filter fun p =>
    p.connected && p.state == .PLAYER_READY).length
  if ready = 2 then
    start_turn { g with state := .GAME_PLAYING, current_turn := 0 } now
  else (g, [])

/-- `end_game` of `baseball_server.c`: announce victory/defeat with both
secrets revealed, then (after the 5-second delay, not modelled) reset the
match fields and return to `GAME_WAITING` keeping connections. -/
def end_game (g : GameManager) (winner_id : Nat) (now : Int) :
    GameManager × List (Nat × Msg) :=
  let g1 := { g with state := .GAME_FINISHED }
  let r := (List.range g1.players.length).foldl (fun acc i =>
    if (playerAt acc.1 i).connected then
      let res := if i = winner_id then "victory" else "defeat"
      let m := Msg.game_over res (playerAt acc.1 i).secret_number
        (playerAt acc.1 (1 - i)).secret_number
      let r1 := send_to_player acc.1 i m now
      (r1.1, acc.2 ++ r1.2)
    else acc) (g1, [])
  let reset := r.1.players.map fun p =>
    if p.connected then
      { p with
        state := PlayerState.PLAYER_WAITING
        secret_number := ""
        attempts := (0 : Int)
        is_winner := false }
    else p
  ({ r.1 with state := .GAME_WAITING, current_turn := 0, players := reset }, r.2)

/-- Parsed client messages handled by `handle_client_message` (lines
564-649 of `baseball_server.c`).  A `none` payload models a JSON body whose
`number`/`guess` field is missing. -/
inductive ClientMsg where
  | set_number (number : Option String)
  | guess (guess : Option String)
  | other
deriving DecidableEq, Repr

/-- The message-dispatch part of `handle_client_message` of
`baseball_server.c` (the `recv` failure path is connection teardown, outside
this function's model). -/
def handle_client_message (g : GameManager) (player_id : Nat) (msg : ClientMsg)
    (now : Int) : GameManager × List (Nat × Msg) :=
  match msg with
  | .set_number onum =>
    if (playerAt g player_id).state ≠ .PLAYER_SETTING then
      send_to_player g player_id (.error "지금은 숫자를 설정할 수 없습니다.") now
    else
      match onum with
      | none => (g, [])
      | some number =>
        if is_valid_number number then
          let p1 := { playerAt g player_id with
                      secret_number := number
                      state := PlayerState.PLAYER_READY }
          let g1 := { g with players := g.players.set player_id p1 }
          let r1 := send_to_player g1 player_id .number_set now
          let r2 := check_all_numbers_set r1.1 now
          (r2.1, r1.2 ++ r2.2)
        else
          send_to_player g player_id
            (.error "올바르지 않은 숫자입니다. 3자리 서로 다른 숫자를 입력하세요.") now
  | .guess oguess =>
    if (playerAt g player_id).state ≠ .PLAYER_TURN then
      send_to_player g player_id (.error "지금은 당신의 턴이 아닙니다.") now
    else
      match oguess with
      | none => (g, [])
      | some gs =>
        if is_valid_number gs then
          let opponent_id := 1 - player_id
          let result := calculate_result (playerAt g opponent_id).secret_number.data gs.data
          let p1 := { playerAt g player_id with
                      attempts := (playerAt g player_id).attempts + 1 }
          let g1 := { g with players := g.players.set player_id p1 }
          let jres := Msg.guess_result gs result.strikes result.balls
            (playerAt g1 player_id).attempts (player_id : Int)
          let r1 := broadcast_to_all g1 jres now
          if result.is_correct then
            let r2 := end_game r1.1 player_id now
            (r2.1, r1.2 ++ r2.2)
          else
            let g2 := { r1.1 with current_turn := 1 - r1.1.current_turn }
            let r2 := start_turn g2 now
            (r2.1, r1.2 ++ r2.2)
        else
          send_to_player g player_id
            (.error "올바르지 않은 숫자입니다. 3자리 서로 다른 숫자를 입력하세요.") now
  | .other => (g, [])

/-- The free-slot scan of `handle_new_connection`: first index with
`!connected`, mirroring the C `for` loop. -/
def scan_free : List PlayerInfo → Nat → Option Nat
  | [], _ => none
  | p :: rest, start => if !p.connected then some start else scan_free rest (start + 1)

/-- `handle_new_connection` of `baseball_server.c`.  When the registry is
full the server writes a capacity/"match in progress" error straight to the
new, never-registered socket and closes it; that socket is outside the slot
table, so the model returns the registry unchanged with no assigned id.
Returns (new manager, assigned identity, messages to registered slots). -/
def handle_new_connection (g : GameManager) (now : Int) :
    GameManager × Option Nat × List (Nat × Msg) :=
  match scan_free g.players 0 with
  | none => (g, none, [])
  | some pid =>
    let p1 := { playerAt g pid with
                connected := true
                state := PlayerState.PLAYER_WAITING }
    let g1 := { g with
                players := g.players.set pid p1
                players_ready := g.players_ready + 1 }
    let r1 := send_to_player g1 pid (.assign_id (pid : Int)) now
    if r1.1.players_ready = 2 then
      let r2 := start_game r1.1 now
      (r2.1, some pid, r1.2 ++ r2.2)
    else
      let r2 := send_to_player r1.1 pid .wait_player now
      (r2.1, some pid, r1.2 ++ r2.2)

/-- `cleanup_disconnected_player` of `baseball_server.c`. -/
def cleanup_disconnected_player (g : GameManager) (player_id : Nat) :
    GameManager :=
  if player_id < g.players.length then
    let p1 := { playerAt g player_id with
                connected := false
                state := PlayerState.PLAYER_WAITING
                secret_number := ""
                attempts := (0 : Int)
                is_winner := false
                retry_count := (0 : Int) }
    let g1 := { g with players := g.players.set player_id p1 }
    let rdy := if g1.players_ready - 1 < 0 then 0 else g1.players_ready - 1
    let g2 := { g1 with players_ready := rdy }
    if g2.state = .GAME_PLAYING ∨ g2.state = .GAME_SETTING then
      { g2 with state := .GAME_WAITING }
    else g2
  else g

/-- `init_game` of `baseball_server.c` (timestamps abstracted to 0). -/
def init_game : GameManager :=
  { state := .GAME_WAITING
    players := (List.range MAX_CLIENTS).map fun i =>
      { player_id := (i : Int), connected := false, state := .PLAYER_WAITING,
        secret_number := "", attempts := 0, is_winner := false,
        last_activity := 0, retry_count := 0 }
    current_turn := 0
    players_ready := 0
    game_start_time := 0
    last_heartbeat := 0 }

end Duel

namespace World

/-- A 16-cell row of empty tiles. -/
def emptyRow : List TileType := List.replicate 16 .TILE_EMPTY

/-- A concrete 16x16 map produced by `init_map`'s random placement: one
resource tile at (0,0), everything else empty. -/
def map0 : List (List TileType) :=
  (List.replicate 16 emptyRow).set 0 (emptyRow.set 0 .TILE_RESOURCE)

/-- A freshly initialised world game state over `map0`. -/
def s0 : GameState := init_game_state map0

/-- Player 0 places its base at (1,1). -/
def s1w : GameState := (place_base s0 0 1 1).getD default

/-- Player 1 places its base at (3,0). -/
def s2w : GameState := (place_base s1w 1 3 0).getD default

/-- Player 0 produces a drone: unit_id 0, spawned at (1,0). -/
def s3w : GameState := (produce_unit s2w 0 .UNIT_DRONE).getD default

/-- Player 0 produces a second drone: unit_id 1, also spawned at (1,0). -/
def s4w : GameState := (produce_unit s3w 0 .UNIT_DRONE).getD default

/-- Player 1 produces a drone: unit_id 100, spawned at (2,0). -/
def s5w : GameState := (produce_unit s4w 1 .UNIT_DRONE).getD default

/-- Player 1's drone attacks unit 0 (adjacent): 14 damage, hp 20 -> 6. -/
def s6w : GameState := (attack_unit s5w 1 100 0).getD default

/-- Second attack on unit 0: hp 6 -> -8, unit 0 is removed by
swap-with-last, leaving player 0 with one unit (id 1). -/
def s7w : GameState := (attack_unit s6w 1 100 0).getD default

/-- Player 0 produces a worker: its id is 0*100 + unit_count = 1, equal to
the id of player 0's surviving drone. -/
def s8w : GameState := (produce_unit s7w 0 .UNIT_WORKER).getD default

end World

namespace World

/-- The per-call environment of one `update_game` invocation: the game
state the server has built up by that tick (commands may run between
ticks), `current_millis()`, `rand()`, and `time(NULL)`. -/
structure CallEnv where
  s : GameState
  now_ms : Int
  r : Nat
  tnow : Int
deriving Repr

/-- Thread the `static int ever_had_two_bases` of `update_game` through a
sequence of calls, returning its final value. -/
def run_ever (ever : Bool) : List CallEnv → Bool
  | [] => ever
  | e :: rest => run_ever (update_game e.s ever e.now_ms e.r e.tnow).2 rest

/-- The list of neighbour cells named by the specification: the 8 cells
around the base, in row-major order (`-1..1` in each axis), excluding the
base's own cell. -/
def neighbor_offsets : List (Int × Int) :=
  [(-1, -1), (0, -1), (1, -1), (-1, 0), (1, 0), (-1, 1), (0, 1), (1, 1)]

/-- First in-bounds empty cell among the base's 8 neighbours, in the
specification's row-major order. -/
def neighbor_spawn (s : GameState) (bx byc : Int) : Option (Int × Int) :=
  (neighbor_offsets.map fun d => (bx + d.1, byc + d.2)).find? fun c =>
    in_bounds c.1 c.2 && (tileAt s c.1 c.2 == .TILE_EMPTY)

/-- Well-formedness of the tile map: 16 rows of 16 cells, as built by
`init_map`. -/
def mapWF (m : List (List TileType)) : Prop :=
  m.length = 16 ∧ ∀ row ∈ m, row.length = 16

instance (m : List (List TileType)) : Decidable (mapWF m) := by
  unfold mapWF; infer_instance

end World

namespace Duel

/-- The registry's identity invariant: each slot's `player_id` is its own
index, as established by `init_game` and never written afterwards. -/
def Inv (g : GameManager) : Prop :=
  ∀ i, i < g.players.length → (playerAt g i).player_id = (i : Int)

instance (g : GameManager) : Decidable (Inv g) := by
  unfold Inv playerAt; infer_instance

/-- A concrete mid-match manager: both players connected, player 0 has set
its code (state `PLAYER_READY`... here mid-play: player 1's turn), used to
exercise the illegal-state rejections. -/
def gW : GameManager :=
  { state := .GAME_PLAYING
    players :=
      [{ player_id := 0, connected := true, state := .PLAYER_WAITING_TURN,
         secret_number := "123", attempts := 0, is_winner := false,
         last_activity := 0, retry_count := 0 },
       { player_id := 1, connected := true, state := .PLAYER_TURN,
         secret_number := "456", attempts := 0, is_winner := false,
         last_activity := 0, retry_count := 0 }]
    current_turn := 1
    players_ready := 2
    game_start_time := 0
    last_heartbeat := 0 }

end Duel

/-! ## Supporting lemmas -/

namespace World

theorem trigger_event_players (s : GameState) (now_ms : Int) (r : Nat) :
    (trigger_event s now_ms r).players = s.players := by
  unfold trigger_event
  split <;> rfl

theorem alive_count_eq_of_players_eq {s1 s2 : GameState}
    (h : s1.players = s2.players) : alive_count s1 = alive_count s2 := by
  unfold alive_count is_base_destroyed playerAt
  rw [h]

theorem alive_count_trigger (s : GameState) (now_ms : Int) (r : Nat) :
    alive_count (trigger_event s now_ms r) = alive_count s :=
  alive_count_eq_of_players_eq (trigger_event_players s now_ms r)

theorem update_game_players (s : GameState) (b : Bool) (now_ms : Int)
    (r : Nat) (tnow : Int) :
    (update_game s b now_ms r tnow).1.players = s.players := by
  unfold update_game
  dsimp only
  split
  · exact trigger_event_players s now_ms r
  · split
    · exact trigger_event_players s now_ms r
    · exact trigger_event_players s now_ms r

theorem update_game_flag_eq_99_iff (s : GameState) (b : Bool) (now_ms : Int)
    (r : Nat) (tnow : Int) :
    (update_game s b now_ms r tnow).1.event_flag = 99 ↔
      alive_count s = 1 ∧ b = true := by
  have ha := alive_count_trigger s now_ms r
  unfold update_game
  dsimp only
  split
  · rename_i h2
    rw [ha] at h2
    constructor
    · intro hflag
      exfalso
      revert hflag
      show (if (trigger_event s now_ms r).event_flag = 99 then (0 : Int)
            else (trigger_event s now_ms r).event_flag) = 99 → False
      split
      · omega
      · rename_i hne
        intro h; exact hne h
    · rintro ⟨h1, -⟩
      omega
  · split
    · rename_i hcond
      rw [ha] at hcond
      simpa using hcond
    · rename_i hno h2no
      rw [ha] at h2no
      constructor
      · intro h
        have h0 : (0 : Int) = 99 := h
        exact absurd h0 (by decide)
      · intro h
        exact absurd h h2no

theorem update_game_snd (s : GameState) (b : Bool) (now_ms : Int) (r : Nat)
    (tnow : Int) :
    (update_game s b now_ms r tnow).2 = (b || decide (2 ≤ alive_count s)) := by
  have ha := alive_count_trigger s now_ms r
  unfold update_game
  dsimp only
  split
  · rename_i h2
    rw [ha] at h2
    simp [h2]
  · split
    · rename_i hno _
      rw [ha] at hno
      simp [hno]
    · rename_i hno _
      rw [ha] at hno
      simp [hno]

theorem run_ever_eq_any (es : List CallEnv) (b : Bool) :
    run_ever b es = (b || es.any fun e => decide (2 ≤ alive_count e.s)) := by
  induction es generalizing b with
  | nil => simp [run_ever]
  | cons e rest ih =>
    rw [run_ever, ih, update_game_snd]
    simp [Bool.or_assoc]

end World

/-! ## Claim theorems -/

/-- C1: the claim states that when, after a tick, exactly one participant
retains an undestroyed base and at least two ever had one, the server
broadcasts `game_over` and halts.  The code cannot do this: the timeout
branch of `main` (`server.c`) guards the broadcast with
`alive_count >= 2 && event_flag == 99`, but `update_game` leaves
`event_flag == 99` only when the live-base count is exactly 1 (and clears a
stale 99 whenever the count is at least 2), and the tick mutates no bases
between the two computations.  Hence the guard is unsatisfiable and the
`game_over` broadcast-and-halt never fires, on any state, ever-flag value,
clock reading or random roll. -/
theorem world_game_over_broadcast_never_fires (s : World.GameState)
    (ever : Bool) (now_ms : Int) (r : Nat) (tnow : Int) :
    (World.server_tick s ever now_ms r tnow).2 = false := by
  unfold World.server_tick
  dsimp only
  have hp := World.update_game_players s ever now_ms r tnow
  have hflag := World.update_game_flag_eq_99_iff s ever now_ms r tnow
  set su := World.update_game s ever now_ms r tnow with hsu
  have halive : World.alive_count su.1 = World.alive_count s :=
    World.alive_count_eq_of_players_eq hp
  by_cases h99 : su.1.event_flag = 99
  · have h1 : World.alive_count s = 1 := (hflag.mp h99).1
    have : ¬(2 ≤ World.alive_count su.1) := by omega
    simp [this]
  · simp [h99]

/-- C5: duel scoring example: `calculate_result` on secret "123" and guess
"321" yields 1 strike, 2 balls, and no win. -/
theorem calculate_result_123_321 :
    Duel.calculate_result "123".data "321".data =
      { strikes := 1, balls := 2, is_correct := false } := by
  decide

/-- C7: ever-had-two gating of the world win condition.  Starting from the
initial `ever_had_two_bases = 0`, across any sequence of `update_game`
calls the final call leaves the terminal flag 99 if and only if it observes
exactly one live base and some earlier call observed at least two; in
particular the flag is never 99 before two live bases have existed, and is
always 99 when exactly one live base remains after that history. -/
theorem ever_had_two_gating (es : List World.CallEnv) (e : World.CallEnv) :
    (World.update_game e.s (World.run_ever false es) e.now_ms e.r e.tnow).1.event_flag = 99
      ↔ World.alive_count e.s = 1 ∧ ∃ p ∈ es, 2 ≤ World.alive_count p.s := by
  rw [World.update_game_flag_eq_99_iff, World.run_ever_eq_any]
  simp [List.any_eq_true]

/-- C10: unit-id reuse.  `produce_unit` assigns `unit_id = owner * 100 +
unit_count` and `attack_unit`'s swap-with-last removal decreases
`unit_count`, so the concrete sequence `s0 .. s8w` of `place_base`,
`produce_unit` and `attack_unit` calls ends with player 0 owning two
simultaneously-live units that both carry `unit_id = 1`; `move_unit` and
`attack_unit` addressed at id 1 then act on the first match in list order
(the drone at index 0), leaving the worker at index 1 untouched. -/
theorem unit_id_reuse_scenario :
    (World.place_base World.s0 0 1 1 = some World.s1w
      ∧ World.place_base World.s1w 1 3 0 = some World.s2w
      ∧ World.produce_unit World.s2w 0 .UNIT_DRONE = some World.s3w
      ∧ World.produce_unit World.s3w 0 .UNIT_DRONE = some World.s4w
      ∧ World.produce_unit World.s4w 1 .UNIT_DRONE = some World.s5w
      ∧ World.attack_unit World.s5w 1 100 0 = some World.s6w
      ∧ World.attack_unit World.s6w 1 100 0 = some World.s7w
      ∧ World.produce_unit World.s7w 0 .UNIT_WORKER = some World.s8w)
    ∧ (World.playerAt World.s8w 0).units.length = 2
    ∧ ((World.playerAt World.s8w 0).units.getD 0 default).unit_id = 1
    ∧ ((World.playerAt World.s8w 0).units.getD 1 default).unit_id = 1
    ∧ ((World.playerAt World.s8w 0).units.getD 0 default).owner_id = 0
    ∧ ((World.playerAt World.s8w 0).units.getD 1 default).owner_id = 0
    ∧ 0 < ((World.playerAt World.s8w 0).units.getD 0 default).hp
    ∧ 0 < ((World.playerAt World.s8w 0).units.getD 1 default).hp
    ∧ (World.move_unit World.s8w 0 1 2 0).map (fun s => (World.playerAt s 0).units)
        = some [{ (World.playerAt World.s8w 0).units.getD 0 default with
                    x := 2, y := 0, moving := 1 },
                (World.playerAt World.s8w 0).units.getD 1 default]
    ∧ (World.attack_unit World.s8w 1 100 1).map (fun s => (World.playerAt s 0).units)
        = some [{ (World.playerAt World.s8w 0).units.getD 0 default with hp := 6 },
                (World.playerAt World.s8w 0).units.getD 1 default] := by
  decide

namespace ListAux

theorem getD_set_self {α} : ∀ (l : List α) (n : Nat) (a d : α), n < l.length →
    (l.set n a).getD n d = a
  | _ :: _, 0, _, _, _ => rfl
  | _ :: t, n + 1, a, d, h => getD_set_self t n a d (by simpa using h)

theorem getD_set_ne {α} : ∀ (l : List α) (n m : Nat) (a d : α), n ≠ m →
    (l.set n a).getD m d = l.getD m d
  | [], _, _, _, _, _ => rfl
  | _ :: _, 0, 0, _, _, h => absurd rfl h
  | _ :: _, 0, _ + 1, _, _, _ => rfl
  | _ :: _, _ + 1, 0, _, _, _ => rfl
  | _ :: t, n + 1, m + 1, a, d, h => getD_set_ne t n m a d (by omega)

theorem getD_mem {α} : ∀ (l : List α) (n : Nat) (d : α), n < l.length →
    l.getD n d ∈ l
  | x :: _, 0, _, _ => List.mem_cons_self x _
  | _ :: t, n + 1, d, h => List.mem_cons_of_mem _ (getD_mem t n d (by simpa using h))

theorem eraseIdx_set_self {α} : ∀ (l : List α) (i : ℕ) (b : α),
    (l.set i b).eraseIdx i = l.eraseIdx i
  | [], _, _ => rfl
  | _ :: _, 0, _ => rfl
  | x :: t, i + 1, b => by
    simp only [List.set, List.eraseIdx]
    exact congrArg (x :: ·) (eraseIdx_set_self t i b)

end ListAux


namespace World

theorem playerAt_setPlayer_self (s : GameState) (pid : Nat) (p : PlayerState)
    (h : pid < s.players.length) : playerAt (setPlayer s pid p) pid = p := by
  unfold playerAt setPlayer
  exact ListAux.getD_set_self _ _ _ _ h

theorem playerAt_setPlayer_ne (s : GameState) (pid q : Nat) (p : PlayerState)
    (h : pid ≠ q) : playerAt (setPlayer s pid p) q = playerAt s q := by
  unfold playerAt setPlayer
  exact ListAux.getD_set_ne _ _ _ _ _ h

theorem tileAt_setPlayer (s : GameState) (pid : Nat) (p : PlayerState)
    (x y : Int) : tileAt (setPlayer s pid p) x y = tileAt s x y := rfl

theorem tileAt_setTile_self (s : GameState) (x y : Int) (t : TileType)
    (hy : y.toNat < s.map.length)
    (hx : x.toNat < (s.map.getD y.toNat []).length) :
    tileAt (setTile s x y t) x y = t := by
  unfold tileAt setTile
  dsimp only
  rw [ListAux.getD_set_self _ _ _ _ hy, ListAux.getD_set_self _ _ _ _ hx]

end World

/-- C3: `place_base` contract.  It fails exactly when the coordinates are
out of grid bounds, the target tile is not `TILE_EMPTY`, or the participant
already has a base (`base_x != -1`, which a successful placement makes
true); on success it sets the tile to `TILE_BASE`, records the base
position, appends a `TILE_BASE` building with 100 starting hit points, and
any second call for the same participant fails, whatever its coordinates.
A failing call leaves the state unchanged by construction: every failing
path of the C function returns before its first write, which the embedding
renders as the mutation-free `none` result. -/
theorem place_base_spec (s : World.GameState) (pid : Nat) (x y : Int)
    (hpid : pid < s.players.length) (hmap : World.mapWF s.map) :
    (World.place_base s pid x y = none ↔
       (x < 0 ∨ World.MAP_WIDTH ≤ x ∨ y < 0 ∨ World.MAP_HEIGHT ≤ y)
       ∨ World.tileAt s x y ≠ .TILE_EMPTY
       ∨ (World.playerAt s pid).base_x ≠ -1)
    ∧ (∀ s', World.place_base s pid x y = some s' →
        World.tileAt s' x y = .TILE_BASE
        ∧ (World.playerAt s' pid).base_x = x
        ∧ (World.playerAt s' pid).base_y = y
        ∧ (World.playerAt s' pid).buildings =
            (World.playerAt s pid).buildings ++
              [{ building_id := (pid : Int) * 100 + ((World.playerAt s pid).buildings.length : Int)
                 owner_id := (pid : Int)
                 type := .TILE_BASE
                 x := x, y := y, hp := 100 }]
        ∧ ∀ x2 y2, World.place_base s' pid x2 y2 = none) := by
  constructor
  · unfold World.place_base
    split
    · rename_i h1
      simp [h1]
    · split
      · rename_i h1 h2
        simp [h1, h2]
      · split
        · rename_i h1 h2 h3
          simp [h1, h2, h3]
        · rename_i h1 h2 h3
          simp [h1, h2, h3]
  · intro s' h
    unfold World.place_base at h
    split at h
    · simp at h
    · split at h
      · simp at h
      · split at h
        · simp at h
        · rename_i h1 h2 h3
          rw [Option.some.injEq] at h
          subst h
          have hx : 0 ≤ x ∧ x < 16 ∧ 0 ≤ y ∧ y < 16 := by
            simp only [World.MAP_WIDTH, World.MAP_HEIGHT, not_or, not_lt, not_le] at h1
            omega
          have hyn : y.toNat < s.map.length := by
            rw [hmap.1]; omega
          have hxn : x.toNat < (s.map.getD y.toNat []).length := by
            rw [hmap.2 _ (ListAux.getD_mem _ _ _ hyn)]; omega
          have hpid2 : pid < (World.setTile s x y .TILE_BASE).players.length := hpid
          refine ⟨?_, ?_, ?_, ?_, ?_⟩
          · rw [World.tileAt_setPlayer, World.tileAt_setTile_self _ _ _ _ hyn hxn]
          · rw [World.playerAt_setPlayer_self _ _ _ hpid2]
          · rw [World.playerAt_setPlayer_self _ _ _ hpid2]
          · rw [World.playerAt_setPlayer_self _ _ _ hpid2]
          · intro x2 y2
            unfold World.place_base
            split
            · rfl
            · split
              · rfl
              · split
                · rfl
                · rename_i hc1 hc2 hc3
                  exfalso
                  apply hc3
                  rw [World.playerAt_setPlayer_self _ _ _ hpid2]
                  show x ≠ -1
                  omega

/-- Witness for C3 at a concrete input: after player 0 placed its base at
(1,1) in `s1w`, a second `place_base` call with different coordinates
fails. -/
theorem place_base_spec_witness :
    World.place_base World.s1w 0 5 5 = none :=
  (place_base_spec World.s1w 0 5 5 (by decide) (by decide)).1.mpr
    (Or.inr (Or.inr (by decide)))

namespace ListAux

theorem find?_middle_false {α} (p : α → Bool) (c : α) (hc : p c = false) :
    ∀ (A B : List α), List.find? p (A ++ c :: B) = List.find? p (A ++ B)
  | [], B => by simp [List.find?, hc]
  | a :: A, B => by
    cases ha : p a with
    | true => simp [List.find?, ha]
    | false => simp [List.find?, ha, find?_middle_false p c hc A B]

end ListAux

namespace World

theorem find_spawn_eq_neighbor_spawn (s : GameState) (bx byc : Int)
    (h : tileAt s bx byc ≠ .TILE_EMPTY) :
    find_spawn s bx byc = neighbor_spawn s bx byc := by
  unfold find_spawn neighbor_spawn scan_offsets neighbor_offsets
  simp only [List.map]
  have hc : (in_bounds (bx + 0) (byc + 0)
      && (tileAt s (bx + 0) (byc + 0) == TileType.TILE_EMPTY)) = false := by
    have h0 : (tileAt s (bx + 0) (byc + 0) == TileType.TILE_EMPTY) = false := by
      rw [show bx + 0 = bx by ring, show byc + 0 = byc by ring]
      exact beq_eq_false_iff_ne.mpr h
    rw [h0, Bool.and_false]
  exact ListAux.find?_middle_false
    (fun c => in_bounds c.1 c.2 && (tileAt s c.1 c.2 == TileType.TILE_EMPTY))
    (bx + 0, byc + 0) hc
    [(bx + -1, byc + -1), (bx + 0, byc + -1), (bx + 1, byc + -1), (bx + -1, byc + 0)]
    [(bx + 1, byc + 0), (bx + -1, byc + 1), (bx + 0, byc + 1), (bx + 1, byc + 1)]

end World

/-- C4: `produce_unit` contract.  It fails when the participant has no
base (`base_x < 0`) and when no in-bounds cell among the base's 8
neighbours is empty; otherwise it succeeds and appends a unit of the
requested type at the first empty neighbour in row-major order (`-1..1` in
each axis), with id `pid * 100 + unit_count` and the fixed stat table
Worker 30/5/2, Soldier 50/10/5, Tank 100/20/15, Drone 20/15/1.  The C scan
actually visits 9 cells including the base's own cell `(0,0)`; the
`hcenter` hypothesis (the base's tile is not empty, true of every state in
which the base was placed by `place_base`, which set it to `TILE_BASE`)
makes that scan agree with the specification's 8-neighbour scan. -/
theorem produce_unit_spec (s : World.GameState) (pid : Nat) (t : World.UnitType)
    (hcenter : World.tileAt s (World.playerAt s pid).base_x
      (World.playerAt s pid).base_y ≠ .TILE_EMPTY) :
    ((World.playerAt s pid).base_x < 0 → World.produce_unit s pid t = none)
    ∧ (0 ≤ (World.playerAt s pid).base_x →
        (World.neighbor_spawn s (World.playerAt s pid).base_x
            (World.playerAt s pid).base_y = none →
          World.produce_unit s pid t = none)
        ∧ (∀ c, World.neighbor_spawn s (World.playerAt s pid).base_x
            (World.playerAt s pid).base_y = some c →
          World.produce_unit s pid t =
            some (World.setPlayer s pid { World.playerAt s pid with
              units := (World.playerAt s pid).units ++
                [⟨(pid : Int) * 100 + ((World.playerAt s pid).units.length : Int),
                  (pid : Int), t, c.1, c.2, (World.unit_stats t).1,
                  (World.unit_stats t).2.1, (World.unit_stats t).2.2, 0⟩] })))
    ∧ World.unit_stats .UNIT_WORKER = (30, 5, 2)
    ∧ World.unit_stats .UNIT_SOLDIER = (50, 10, 5)
    ∧ World.unit_stats .UNIT_TANK = (100, 20, 15)
    ∧ World.unit_stats .UNIT_DRONE = (20, 15, 1) := by
  have hswap := World.find_spawn_eq_neighbor_spawn s
    (World.playerAt s pid).base_x (World.playerAt s pid).base_y hcenter
  refine ⟨?_, ?_, rfl, rfl, rfl, rfl⟩
  · intro hb
    unfold World.produce_unit
    dsimp only
    rw [if_pos hb]
  · intro hb
    constructor
    · intro hnone
      unfold World.produce_unit
      dsimp only
      rw [if_neg (by omega), hswap, hnone]
    · intro c hc
      unfold World.produce_unit
      dsimp only
      rw [if_neg (by omega), hswap, hc]

/-- Witness for C4 at a concrete input: in `s2w` player 0's base is at
(1,1) whose tile is `TILE_BASE`, cell (0,0) holds a resource, so the first
empty neighbour is (1,0) and production succeeds there. -/
theorem produce_unit_spec_witness :
    World.produce_unit World.s2w 0 .UNIT_DRONE = some World.s3w := by
  have h := ((produce_unit_spec World.s2w 0 .UNIT_DRONE (by decide)).2.1
    (by decide)).2 (1, 0) (by decide)
  rw [h]
  decide

namespace World

theorem produce_unit_eq_some {s : GameState} {pid : Nat} {t : UnitType}
    {s' : GameState} (h : produce_unit s pid t = some s') :
    0 ≤ (playerAt s pid).base_x ∧
    ∃ c, find_spawn s (playerAt s pid).base_x (playerAt s pid).base_y = some c ∧
      s' = setPlayer s pid { playerAt s pid with
        units := (playerAt s pid).units ++
          [⟨(pid : Int) * 100 + ((playerAt s pid).units.length : Int),
            (pid : Int), t, c.1, c.2, (unit_stats t).1,
            (unit_stats t).2.1, (unit_stats t).2.2, 0⟩] } := by
  unfold produce_unit at h
  dsimp only at h
  split at h
  · simp at h
  · rename_i hb
    split at h
    · simp at h
    · rename_i c hc
      rw [Option.some.injEq] at h
      exact ⟨by omega, c, hc, h.symm⟩

theorem find_spawn_congr {s1 s2 : GameState} (h : s1.map = s2.map)
    (bx byc : Int) : find_spawn s1 bx byc = find_spawn s2 bx byc := by
  unfold find_spawn tileAt
  rw [h]

theorem remove_dead_unit_map (s : GameState) (o tid : Int) :
    (remove_dead_unit s o tid).map = s.map := by
  unfold remove_dead_unit
  dsimp only
  split <;> rfl

theorem produce_unit_map {s : GameState} {pid : Nat} {t : UnitType}
    {s' : GameState} (h : produce_unit s pid t = some s') : s'.map = s.map := by
  obtain ⟨-, c, -, rfl⟩ := produce_unit_eq_some h
  rfl

theorem move_unit_map {s : GameState} {pid : Nat} {uid nx ny : Int}
    {s' : GameState} (h : move_unit s pid uid nx ny = some s') :
    s'.map = s.map := by
  unfold move_unit at h
  dsimp only at h
  split at h
  · simp at h
  · split at h
    · simp at h
    · rw [Option.some.injEq] at h
      subst h
      rfl

theorem attack_unit_map {s : GameState} {pid : Nat} {aid tid : Int}
    {s' : GameState} (h : attack_unit s pid aid tid = some s') :
    s'.map = s.map := by
  unfold attack_unit at h
  split at h
  · simp at h
  · split at h
    · simp at h
    · dsimp only at h
      split at h
      · simp at h
      · split at h
        · split at h
          · rw [Option.some.injEq] at h
            subst h
            rw [remove_dead_unit_map]
            rfl
          · rw [Option.some.injEq] at h
            subst h
            rfl
        · split at h
          · rw [Option.some.injEq] at h
            subst h
            rw [remove_dead_unit_map]
            rfl
          · rw [Option.some.injEq] at h
            subst h
            rfl

end World

/-- C9: frame property of the world rule engine.  `produce_unit`,
`move_unit` and `attack_unit` never modify the tile map (only `init_map`
and `place_base` write map cells), so a spawned or moved unit never marks
its tile as occupied; consequently two consecutive successful
`produce_unit` calls for the same participant, with no intervening map
change, place both units on the same cell (the last-appended units of the
two result states have equal positions). -/
theorem world_ops_map_frame :
    (∀ (s : World.GameState) (pid : Nat) (t : World.UnitType) (s' : World.GameState),
        World.produce_unit s pid t = some s' → s'.map = s.map)
    ∧ (∀ (s : World.GameState) (pid : Nat) (uid nx ny : Int) (s' : World.GameState),
        World.move_unit s pid uid nx ny = some s' → s'.map = s.map)
    ∧ (∀ (s : World.GameState) (pid : Nat) (aid tid : Int) (s' : World.GameState),
        World.attack_unit s pid aid tid = some s' → s'.map = s.map)
    ∧ (∀ (s : World.GameState) (pid : Nat) (t1 t2 : World.UnitType)
        (s1 s2 : World.GameState), pid < s.players.length →
        World.produce_unit s pid t1 = some s1 →
        World.produce_unit s1 pid t2 = some s2 →
        ((World.playerAt s1 pid).units.getLast?).isSome = true
        ∧ ((World.playerAt s1 pid).units.getLast?.map fun u => (u.x, u.y))
            = ((World.playerAt s2 pid).units.getLast?.map fun u => (u.x, u.y))) := by
  refine ⟨fun s pid t s' h => World.produce_unit_map h,
          fun s pid uid nx ny s' h => World.move_unit_map h,
          fun s pid aid tid s' h => World.attack_unit_map h,
          fun s pid t1 t2 s1 s2 hpid h1 h2 => ?_⟩
  obtain ⟨hb1, c1, hc1, rfl⟩ := World.produce_unit_eq_some h1
  obtain ⟨hb2, c2, hc2, rfl⟩ := World.produce_unit_eq_some h2
  rw [World.playerAt_setPlayer_self _ _ _ hpid] at hc2 ⊢
  rw [World.find_spawn_congr (rfl : (World.setPlayer s pid _).map = s.map)] at hc2
  have hcc : c2 = c1 := by
    have := hc1.symm.trans hc2
    exact (Option.some.injEq _ _ ▸ this).symm
  subst hcc
  constructor
  · rw [List.getLast?_concat]
    rfl
  · rw [World.playerAt_setPlayer_self]
    · dsimp only
      rw [List.getLast?_concat, List.getLast?_concat]
      rfl
    · simpa [World.setPlayer] using hpid

/-- Witness for C9 at a concrete input: in `s2w` player 0 produces two
drones in a row (`s3w`, `s4w`); both land on (1,0). -/
theorem world_ops_map_frame_witness :
    ((World.playerAt World.s3w 0).units.getLast?.map fun u => (u.x, u.y))
      = ((World.playerAt World.s4w 0).units.getLast?.map fun u => (u.x, u.y)) :=
  (world_ops_map_frame.2.2.2 World.s2w 0 .UNIT_DRONE .UNIT_DRONE World.s3w
    World.s4w (by decide) (by decide) (by decide)).2

namespace ListAux

theorem getD_of_get? {α} {l : List α} {n : Nat} {a : α} (d : α)
    (h : l.get? n = some a) : l.getD n d = a := by
  simp [List.getD_eq_getElem?_getD, ← List.get?_eq_getElem?, h]

theorem lt_length_of_get? {α} {l : List α} {n : Nat} {a : α}
    (h : l.get? n = some a) : n < l.length :=
  (List.get?_eq_some.mp h).1

theorem findIdx?_cons_eq {α} (p : α → Bool) (x : α) (t : List α) :
    (x :: t).findIdx? p = if p x then some 0 else (t.findIdx? p).map (· + 1) := by
  simp [List.findIdx?_cons]

theorem findIdx?_get? {α} {p : α → Bool} :
    ∀ {l : List α} {i : Nat}, l.findIdx? p = some i →
      ∃ a, l.get? i = some a ∧ p a = true := by
  intro l
  induction l with
  | nil => intro i h; simp [List.findIdx?_nil] at h
  | cons x t ih =>
    intro i h
    rw [findIdx?_cons_eq] at h
    by_cases hx : p x
    · rw [if_pos hx] at h
      obtain rfl : 0 = i := by simpa using h
      exact ⟨x, rfl, hx⟩
    · rw [if_neg hx] at h
      obtain ⟨j, hj, rfl⟩ := Option.map_eq_some'.mp h
      obtain ⟨a, ha, hpa⟩ := ih hj
      exact ⟨a, by simpa using ha, hpa⟩

theorem findIdx?_set_same {α} (p : α → Bool) (b : α) (hb : p b = true) :
    ∀ {l : List α} {i : Nat}, l.findIdx? p = some i →
      (l.set i b).findIdx? p = some i := by
  intro l
  induction l with
  | nil => intro i h; simp [List.findIdx?_nil] at h
  | cons x t ih =>
    intro i h
    rw [findIdx?_cons_eq] at h
    by_cases hx : p x
    · rw [if_pos hx] at h
      obtain rfl : 0 = i := by simpa using h
      simp [findIdx?_cons_eq, hb]
    · rw [if_neg hx] at h
      obtain ⟨j, hj, rfl⟩ := Option.map_eq_some'.mp h
      have := ih hj
      simp [List.set, findIdx?_cons_eq, hx, this]

theorem getD_last_cons_take_perm {α} (d : α) :
    ∀ (l : List α), l ≠ [] →
      ((l.getD (l.length - 1) d) :: l.take (l.length - 1)).Perm l
  | [], h => absurd rfl h
  | [x], _ => by simp
  | x :: y :: t, _ => by
    have ih := getD_last_cons_take_perm d (y :: t) (by simp)
    have hget : (x :: y :: t).getD ((x :: y :: t).length - 1) d
        = (y :: t).getD ((y :: t).length - 1) d := by
      simp [List.getD]
    have htake : (x :: y :: t).take ((x :: y :: t).length - 1)
        = x :: (y :: t).take ((y :: t).length - 1) := by
      simp [List.take]
    rw [hget, htake]
    exact ((List.Perm.swap x _ _).trans (List.Perm.cons x ih))

theorem swap_remove_perm {α} (d : α) :
    ∀ (l : List α) (i : Nat), i < l.length →
      ((l.set i (l.getD (l.length - 1) d)).take (l.length - 1)).Perm
        (l.eraseIdx i)
  | [], i, h => by simp at h
  | x :: t, 0, _ => by
    cases t with
    | nil => simp
    | cons y t' =>
      have := getD_last_cons_take_perm d (y :: t') (by simp)
      simpa [List.set, List.take, List.eraseIdx, List.getD] using this
  | x :: t, i + 1, h => by
    cases t with
    | nil => simp at h
    | cons y t' =>
      have ih := swap_remove_perm d (y :: t') i (by simpa using h)
      have hget : (x :: y :: t').getD ((x :: y :: t').length - 1) d
          = (y :: t').getD ((y :: t').length - 1) d := by
        simp [List.getD]
      rw [hget]
      show (x :: ((y :: t').set i _).take ((y :: t').length - 1)).Perm
        (x :: (y :: t').eraseIdx i)
      exact List.Perm.cons x ih

end ListAux

namespace World

theorem find_target_eq_some {ps : List PlayerState} {tid : Int} {tpid ti : Nat}
    (h : find_target ps tid = some (tpid, ti)) :
    ∃ p, ps.get? tpid = some p ∧
      p.units.findIdx? (fun u => u.unit_id == tid) = some ti := by
  induction ps generalizing tpid with
  | nil => simp [find_target] at h
  | cons p rest ih =>
    simp only [find_target] at h
    cases hfi : p.units.findIdx? (fun u => u.unit_id == tid) with
    | some i =>
      rw [hfi] at h
      simp only [Option.some.injEq, Prod.mk.injEq] at h
      obtain ⟨h1, h2⟩ := h
      subst h1
      subst h2
      exact ⟨p, rfl, hfi⟩
    | none =>
      rw [hfi] at h
      obtain ⟨⟨k, j⟩, hk, hr⟩ := Option.map_eq_some'.mp h
      simp only [Prod.mk.injEq] at hr
      obtain ⟨h1, h2⟩ := hr
      subst h1
      subst h2
      obtain ⟨q, hq, hfiq⟩ := ih hk
      exact ⟨q, by simpa using hq, hfiq⟩

end World

/-- C2: `attack_unit` contract.  When the attacker is found among the
acting participant's units, the target is found by the scan over all
participants' unit lists (`find_target`, first match at player `tpid`,
index `ti`), and the Manhattan distance between them is exactly 1, the call
succeeds; the damage is `max 1 (attacker.attack - target.defense)`.  If the
target's hit points stay positive only its hp field changes; if they drop
to `<= 0` the target is removed from its owner's list by swap-with-last
(the `owner_id = tpid` hypothesis is the well-formedness every
`produce_unit`-created unit satisfies), and the surviving list is a
permutation of the original list minus the target — iteration order may
change but membership of every other unit is preserved, and every other
player's list is untouched.  If the target is not found, or the distance is
not 1, the call fails (returning before any mutation). -/
theorem attack_unit_spec (s : World.GameState) (pid : Nat) (aid tid : Int) :
    (∀ (att : World.Unit) (tpid ti : Nat) (tgt : World.Unit),
      (World.playerAt s pid).units.find? (fun u => u.unit_id == aid) = some att →
      World.find_target s.players tid = some (tpid, ti) →
      (World.playerAt s tpid).units.get? ti = some tgt →
      (att.x - tgt.x).natAbs + (att.y - tgt.y).natAbs = 1 →
      tgt.owner_id = (tpid : Int) →
      (0 < tgt.hp - max 1 (att.attack - tgt.defense) →
        World.attack_unit s pid aid tid =
          some (World.setPlayer s tpid { World.playerAt s tpid with
            units := (World.playerAt s tpid).units.set ti
              { tgt with hp := tgt.hp - max 1 (att.attack - tgt.defense) } }))
      ∧ (tgt.hp - max 1 (att.attack - tgt.defense) ≤ 0 →
        ∃ s', World.attack_unit s pid aid tid = some s'
          ∧ (World.playerAt s' tpid).units.Perm
              ((World.playerAt s tpid).units.eraseIdx ti)
          ∧ ∀ q, q ≠ tpid → s'.players.get? q = s.players.get? q))
    ∧ (World.find_target s.players tid = none →
        World.attack_unit s pid aid tid = none)
    ∧ (∀ (att : World.Unit) (tpid ti : Nat) (tgt : World.Unit),
      (World.playerAt s pid).units.find? (fun u => u.unit_id == aid) = some att →
      World.find_target s.players tid = some (tpid, ti) →
      (World.playerAt s tpid).units.get? ti = some tgt →
      (att.x - tgt.x).natAbs + (att.y - tgt.y).natAbs ≠ 1 →
      World.attack_unit s pid aid tid = none) := by
  refine ⟨?_, ?_, ?_⟩
  · intro att tpid ti tgt hA hT htgt hdist howner
    obtain ⟨p, hget, hfi0⟩ := World.find_target_eq_some hT
    have htplt : tpid < s.players.length := ListAux.lt_length_of_get? hget
    have hpeq : World.playerAt s tpid = p := ListAux.getD_of_get? default hget
    rw [← hpeq] at hfi0
    have htilt : ti < (World.playerAt s tpid).units.length :=
      ListAux.lt_length_of_get? htgt
    have hgetD : (World.playerAt s tpid).units.getD ti default = tgt :=
      ListAux.getD_of_get? default htgt
    have hptgt : (tgt.unit_id == tid) = true := by
      obtain ⟨a, ha, hpa⟩ := ListAux.findIdx?_get? hfi0
      rw [htgt] at ha
      obtain rfl := (Option.some.injEq _ _).mp ha
      exact hpa
    have hdmg : (if att.attack - tgt.defense < 1 then (1 : Int)
        else att.attack - tgt.defense) = max 1 (att.attack - tgt.defense) := by
      split <;> omega
    have hred : World.attack_unit s pid aid tid =
        (if tgt.hp - max 1 (att.attack - tgt.defense) ≤ 0 then
          some (World.remove_dead_unit (World.setPlayer s tpid
            { World.playerAt s tpid with
              units := (World.playerAt s tpid).units.set ti
                { tgt with hp := tgt.hp - max 1 (att.attack - tgt.defense) } })
            tgt.owner_id tid)
        else
          some (World.setPlayer s tpid { World.playerAt s tpid with
            units := (World.playerAt s tpid).units.set ti
              { tgt with hp := tgt.hp - max 1 (att.attack - tgt.defense) } })) := by
      unfold World.attack_unit
      rw [hA, hT]
      dsimp only
      rw [hgetD, if_neg (by omega), hdmg]
    constructor
    · intro hpos
      rw [hred, if_neg (by omega)]
    · intro hneg
      rw [hred, if_pos hneg]
      set tgt' : World.Unit :=
        { tgt with hp := tgt.hp - max 1 (att.attack - tgt.defense) } with htgtdef
      set P' : World.PlayerState := { World.playerAt s tpid with
        units := (World.playerAt s tpid).units.set ti tgt' } with hPdef
      have hlenS1 : tpid < (World.setPlayer s tpid P').players.length := by
        simpa [World.setPlayer] using htplt
      have hPA : World.playerAt (World.setPlayer s tpid P') tpid = P' :=
        World.playerAt_setPlayer_self _ _ _ htplt
      have hfi1 : P'.units.findIdx? (fun u => u.unit_id == tid) = some ti := by
        rw [hPdef]
        exact ListAux.findIdx?_set_same (fun u => u.unit_id == tid) tgt' hptgt hfi0
      set l2 : List World.Unit :=
        (P'.units.set ti (P'.units.getD (P'.units.length - 1) default)).take
          (P'.units.length - 1) with hl2def
      have hrem : World.remove_dead_unit (World.setPlayer s tpid P')
          tgt.owner_id tid
          = World.setPlayer (World.setPlayer s tpid P') tpid { P' with units := l2 } := by
        rw [howner]
        unfold World.remove_dead_unit
        have htoNat : (((tpid : Nat) : Int)).toNat = tpid := rfl
        rw [htoNat, hPA]
        dsimp only
        rw [hfi1]
      rw [hrem]
      refine ⟨_, rfl, ?_, ?_⟩
      · rw [World.playerAt_setPlayer_self _ _ _ hlenS1]
        dsimp only
        have htiP : ti < P'.units.length := by
          rw [hPdef]
          simpa using htilt
        rw [hl2def]
        have hperm := ListAux.swap_remove_perm default P'.units ti htiP
        have herase : P'.units.eraseIdx ti
            = (World.playerAt s tpid).units.eraseIdx ti := by
          rw [hPdef]
          exact ListAux.eraseIdx_set_self _ _ _
        exact herase ▸ hperm
      · intro q hq
        show ((s.players.set tpid P').set tpid _).get? q = s.players.get? q
        rw [List.get?_set_ne _ _ (Ne.symm hq), List.get?_set_ne _ _ (Ne.symm hq)]
  · intro hT
    cases hA : (World.playerAt s pid).units.find? (fun u => u.unit_id == aid) with
    | none =>
      unfold World.attack_unit
      rw [hA]
    | some att =>
      unfold World.attack_unit
      rw [hA, hT]
  · intro att tpid ti tgt hA hT htgt hdist
    have hgetD : (World.playerAt s tpid).units.getD ti default = tgt :=
      ListAux.getD_of_get? default htgt
    unfold World.attack_unit
    rw [hA, hT]
    dsimp only
    rw [hgetD, if_pos hdist]

/-- Witness for C2 at a concrete input: in `s5w` player 1's drone (id 100,
at (2,0)) attacks player 0's drone (id 0, at (1,0)); distance 1, damage
`max 1 (15 - 1) = 14`, hp 20 -> 6, no removal; the result is `s6w`. -/
theorem attack_unit_spec_witness :
    World.attack_unit World.s5w 1 100 0 = some World.s6w := by
  have h := ((attack_unit_spec World.s5w 1 100 0).1
    ⟨100, 1, .UNIT_DRONE, 2, 0, 20, 15, 1, 0⟩ 0 0
    ⟨0, 0, .UNIT_DRONE, 1, 0, 20, 15, 1, 0⟩
    (by decide) (by decide) (by decide) (by decide) (by decide)).1 (by decide)
  rw [h]
  decide

namespace ListAux

theorem map_set_getD {α β} (f : α → β) : ∀ (l : List α) (i : Nat) (a d : α),
    f a = f (l.getD i d) → (l.set i a).map f = l.map f
  | [], _, _, _, _ => rfl
  | x :: t, 0, a, d, h => by
    simp only [List.set, List.map]
    rw [show f a = f x from h]
  | x :: t, i + 1, a, d, h => by
    simp only [List.set, List.map]
    rw [map_set_getD f t i a d h]

theorem getD_proj_of_map_eq {α β} (f : α → β) {l1 l2 : List α}
    (h : l1.map f = l2.map f) (q : Nat) (d : α) :
    f (l1.getD q d) = f (l2.getD q d) := by
  rw [← List.getD_map l1 d f, ← List.getD_map l2 d f, h]

theorem length_of_map_eq {α β} (f : α → β) {l1 l2 : List α}
    (h : l1.map f = l2.map f) : l1.length = l2.length := by
  rw [← List.length_map l1 f, ← List.length_map l2 f, h]

theorem foldl_preserve {σ α : Type _} (P : σ → Prop) (step : σ → α → σ)
    (hstep : ∀ acc i, P acc → P (step acc i)) :
    ∀ (L : List α) (init : σ), P init → P (L.foldl step init)
  | [], _, h => h
  | i :: L, init, h => foldl_preserve P step hstep L (step init i) (hstep init i h)

end ListAux

namespace Duel

/-- The connectivity profile of the registry. -/
def connMap (g : GameManager) : List Bool := g.players.map (·.connected)

/-- The identity assignment of the registry. -/
def pidMap (g : GameManager) : List Int := g.players.map (·.player_id)

theorem send_to_player_connMap (g : GameManager) (pid : Nat) (m : Msg)
    (now : Int) : connMap (send_to_player g pid m now).1 = connMap g := by
  unfold send_to_player
  split
  · exact ListAux.map_set_getD _ _ _ _ default rfl
  · rfl

theorem send_to_player_pidMap (g : GameManager) (pid : Nat) (m : Msg)
    (now : Int) : pidMap (send_to_player g pid m now).1 = pidMap g := by
  unfold send_to_player
  split
  · exact ListAux.map_set_getD _ _ _ _ default rfl
  · rfl

theorem broadcast_to_all_connMap (g : GameManager) (m : Msg) (now : Int) :
    connMap (broadcast_to_all g m now).1 = connMap g := by
  unfold broadcast_to_all
  refine ListAux.foldl_preserve (fun acc : GameManager × List (Nat × Msg) => connMap acc.1 = connMap g) _ ?_ _ _ rfl
  intro acc i hacc
  dsimp only
  split
  · dsimp only [connMap] at hacc ⊢
    rw [← hacc]
    exact ListAux.map_set_getD _ _ _ _ default rfl
  · exact hacc

theorem broadcast_to_all_pidMap (g : GameManager) (m : Msg) (now : Int) :
    pidMap (broadcast_to_all g m now).1 = pidMap g := by
  unfold broadcast_to_all
  refine ListAux.foldl_preserve (fun acc : GameManager × List (Nat × Msg) => pidMap acc.1 = pidMap g) _ ?_ _ _ rfl
  intro acc i hacc
  dsimp only
  split
  · dsimp only [pidMap] at hacc ⊢
    rw [← hacc]
    exact ListAux.map_set_getD _ _ _ _ default rfl
  · exact hacc

theorem start_game_connMap (g : GameManager) (now : Int) :
    connMap (start_game g now).1 = connMap g := by
  unfold start_game
  split
  · rfl
  · dsimp only [connMap]
    rw [List.map_map]
    have h1 : connMap (broadcast_to_all { g with state := .GAME_SETTING } .game_start now).1
        = connMap { g with state := .GAME_SETTING } :=
      broadcast_to_all_connMap _ _ _
    dsimp only [connMap] at h1
    rw [show ((fun p : PlayerInfo => p.connected) ∘ fun p : PlayerInfo =>
        if p.connected then { p with state := PlayerState.PLAYER_SETTING } else p)
        = fun p : PlayerInfo => p.connected from ?_]
    · exact h1
    · funext p
      by_cases hp : p.connected <;> simp [hp]

theorem start_game_pidMap (g : GameManager) (now : Int) :
    pidMap (start_game g now).1 = pidMap g := by
  unfold start_game
  split
  · rfl
  · dsimp only [pidMap]
    rw [List.map_map]
    have h1 : pidMap (broadcast_to_all { g with state := .GAME_SETTING } .game_start now).1
        = pidMap { g with state := .GAME_SETTING } :=
      broadcast_to_all_pidMap _ _ _
    dsimp only [pidMap] at h1
    rw [show ((fun p : PlayerInfo => p.player_id) ∘ fun p : PlayerInfo =>
        if p.connected then { p with state := PlayerState.PLAYER_SETTING } else p)
        = fun p : PlayerInfo => p.player_id from ?_]
    · exact h1
    · funext p
      by_cases hp : p.connected <;> simp [hp]

end Duel

namespace Duel

theorem scan_free_some : ∀ (l : List PlayerInfo) (start m : Nat),
    scan_free l start = some m →
    start ≤ m ∧ m - start < l.length
    ∧ (l.getD (m - start) default).connected = false
    ∧ ∀ j, j < m - start → (l.getD j default).connected = true := by
  intro l
  induction l with
  | nil => intro start m h; simp [scan_free] at h
  | cons p t ih =>
    intro start m h
    unfold scan_free at h
    by_cases hp : p.connected
    · rw [if_neg (by simp [hp])] at h
      obtain ⟨hle, hlt, hfree, hall⟩ := ih (start + 1) m h
      have hms : start < m := by omega
      refine ⟨by omega, by simp; omega, ?_, ?_⟩
      · have : m - start = (m - (start + 1)) + 1 := by omega
        rw [this]
        simpa using hfree
      · intro j hj
        cases j with
        | zero => simpa using hp
        | succ j' =>
          have : j' < m - (start + 1) := by omega
          simpa using hall j' this
    · rw [if_pos (by simp [hp])] at h
      obtain rfl : start = m := by simpa using h
      refine ⟨le_refl _, by simp, by simpa using hp, ?_⟩
      intro j hj
      omega

theorem scan_free_none : ∀ (l : List PlayerInfo) (start : Nat),
    (∀ j, j < l.length → (l.getD j default).connected = true) →
    scan_free l start = none := by
  intro l
  induction l with
  | nil => intro start _; rfl
  | cons p t ih =>
    intro start hall
    have hp : p.connected = true := by simpa using hall 0 (by simp)
    unfold scan_free
    rw [if_neg (by simp [hp])]
    refine ih (start + 1) ?_
    intro j hj
    simpa using hall (j + 1) (by simpa using hj)

theorem scan_free_first : ∀ (l : List PlayerInfo) (s k : Nat), k < l.length →
    (l.getD k default).connected = false →
    (∀ j, j < k → (l.getD j default).connected = true) →
    scan_free l s = some (s + k) := by
  intro l
  induction l with
  | nil => intro s k h; simp at h
  | cons p t ih =>
    intro s k hk hfree hall
    unfold scan_free
    cases k with
    | zero =>
      rw [if_pos (by simpa using hfree)]
      rfl
    | succ k' =>
      have hp : p.connected = true := hall 0 (by omega)
      rw [if_neg (by simp [hp])]
      have := ih (s + 1) k' (by simpa using hk) (by simpa using hfree)
        (fun j hj => by simpa using hall (j + 1) (by omega))
      rw [this]
      congr 1
      omega

theorem cleanup_players (g : GameManager) (k : Nat) (hk : k < g.players.length) :
    (cleanup_disconnected_player g k).players
      = g.players.set k { playerAt g k with
          connected := false
          state := PlayerState.PLAYER_WAITING
          secret_number := ""
          attempts := (0 : Int)
          is_winner := false
          retry_count := (0 : Int) } := by
  unfold cleanup_disconnected_player
  rw [if_pos hk]
  dsimp only
  split <;> rfl

end Duel

namespace Duel

theorem connMap_getD (g : GameManager) (q : Nat) :
    (connMap g).getD q false = (playerAt g q).connected := by
  unfold connMap playerAt
  exact List.getD_map g.players (default : PlayerInfo) (·.connected)

theorem connMap_length (g : GameManager) : (connMap g).length = g.players.length := by
  unfold connMap
  exact List.length_map _ _

theorem handle_new_connection_conn {g : GameManager} (now : Int) {pid : Nat}
    (h : scan_free g.players 0 = some pid) :
    connMap (handle_new_connection g now).1 = (connMap g).set pid true := by
  unfold handle_new_connection
  rw [h]
  dsimp only
  split
  · rw [start_game_connMap, send_to_player_connMap]
    unfold connMap
    exact List.map_set ..
  · rw [send_to_player_connMap, send_to_player_connMap]
    unfold connMap
    exact List.map_set ..

theorem handle_new_connection_assigned {g : GameManager} {now : Int} {pid : Nat}
    (h : scan_free g.players 0 = some pid) :
    (handle_new_connection g now).2.1 = some pid := by
  unfold handle_new_connection
  rw [h]
  dsimp only
  split <;> rfl

theorem handle_new_connection_pidMap (g : GameManager) (now : Int) :
    pidMap (handle_new_connection g now).1 = pidMap g := by
  unfold handle_new_connection
  cases h : scan_free g.players 0 with
  | none => rfl
  | some pid =>
    dsimp only
    split
    · rw [start_game_pidMap, send_to_player_pidMap]
      exact ListAux.map_set_getD _ _ _ _ default rfl
    · rw [send_to_player_pidMap, send_to_player_pidMap]
      exact ListAux.map_set_getD _ _ _ _ default rfl

theorem cleanup_pidMap (g : GameManager) (k : Nat) :
    pidMap (cleanup_disconnected_player g k) = pidMap g := by
  unfold cleanup_disconnected_player
  split
  · dsimp only
    split <;> exact ListAux.map_set_getD _ _ _ _ default rfl
  · rfl

theorem Inv_of_pidMap {g g' : GameManager} (h : pidMap g' = pidMap g)
    (hg : Inv g) : Inv g' := by
  intro i hi
  have hlen : g'.players.length = g.players.length :=
    ListAux.length_of_map_eq _ h
  have hq := ListAux.getD_proj_of_map_eq (fun p : PlayerInfo => p.player_id)
    h i (default : PlayerInfo)
  unfold playerAt
  exact hq.trans (hg i (hlen ▸ hi))

end Duel

/-- C8: connection-registry invariant.  An accepted connection is assigned
the lowest identity whose slot is not connected (the first-free scan of
`handle_new_connection`), the slot becomes connected and no other slot's
connectivity changes; when every slot is connected the new connection is
rejected (the error goes to the never-registered socket) and closed with no
slot allocated and the registry unchanged; each slot's `player_id` equals
its index (established by `init_game`, preserved by accept and cleanup), so
two distinct simultaneously-connected slots never hold the same identity;
and after `cleanup_disconnected_player` frees identity `k`, `k` is
disconnected and — here, from a previously full registry — the very next
accepted connection is assigned `k` again. -/
theorem connection_registry_spec (g : Duel.GameManager) (now : Int) :
    (∀ pid, (Duel.handle_new_connection g now).2.1 = some pid →
       pid < g.players.length
       ∧ (Duel.playerAt g pid).connected = false
       ∧ (∀ j, j < pid → (Duel.playerAt g j).connected = true)
       ∧ (Duel.playerAt (Duel.handle_new_connection g now).1 pid).connected = true
       ∧ ∀ q, q ≠ pid →
           (Duel.playerAt (Duel.handle_new_connection g now).1 q).connected
             = (Duel.playerAt g q).connected)
    ∧ ((∀ j, j < g.players.length → (Duel.playerAt g j).connected = true) →
        Duel.handle_new_connection g now = (g, none, []))
    ∧ (Duel.Inv g →
        Duel.Inv (Duel.handle_new_connection g now).1
        ∧ (∀ k, Duel.Inv (Duel.cleanup_disconnected_player g k))
        ∧ ∀ j k, j < g.players.length → k < g.players.length → j ≠ k →
            (Duel.playerAt g j).connected = true →
            (Duel.playerAt g k).connected = true →
            (Duel.playerAt g j).player_id ≠ (Duel.playerAt g k).player_id)
    ∧ (∀ k, k < g.players.length →
        (Duel.playerAt (Duel.cleanup_disconnected_player g k) k).connected = false
        ∧ ((∀ j, j < g.players.length → (Duel.playerAt g j).connected = true) →
            (Duel.handle_new_connection (Duel.cleanup_disconnected_player g k)
              now).2.1 = some k))
    ∧ Duel.Inv Duel.init_game := by
  refine ⟨?_, ?_, ?_, ?_, by decide⟩
  · intro pid hpid
    have hscan : Duel.scan_free g.players 0 = some pid := by
      revert hpid
      unfold Duel.handle_new_connection
      cases h : Duel.scan_free g.players 0 with
      | none => intro hpid; simp at hpid
      | some q =>
        dsimp only
        split
        · intro hpid
          have hq : some q = some pid := hpid
          obtain rfl := (Option.some.injEq _ _).mp hq
          rfl
        · intro hpid
          have hq : some q = some pid := hpid
          obtain rfl := (Option.some.injEq _ _).mp hq
          rfl
    obtain ⟨-, hlt, hfree, hall⟩ := Duel.scan_free_some g.players 0 pid hscan
    simp only [Nat.sub_zero] at hlt hfree hall
    have hconn := Duel.handle_new_connection_conn now hscan
    refine ⟨hlt, hfree, fun j hj => hall j hj, ?_, ?_⟩
    · rw [← Duel.connMap_getD, hconn,
        ListAux.getD_set_self _ _ _ _ (by rw [Duel.connMap_length]; exact hlt)]
    · intro q hq
      rw [← Duel.connMap_getD, hconn,
        ListAux.getD_set_ne _ _ _ _ _ (fun h => hq h.symm), Duel.connMap_getD]
  · intro hall
    have hscan : Duel.scan_free g.players 0 = none :=
      Duel.scan_free_none g.players 0 hall
    unfold Duel.handle_new_connection
    rw [hscan]
  · intro hInv
    refine ⟨Duel.Inv_of_pidMap (Duel.handle_new_connection_pidMap g now) hInv,
      fun k => Duel.Inv_of_pidMap (Duel.cleanup_pidMap g k) hInv, ?_⟩
    intro j k hj hk hne _ _
    rw [hInv j hj, hInv k hk]
    exact fun h => hne (by exact_mod_cast h)
  · intro k hk
    have hplayers := Duel.cleanup_players g k hk
    have hconnk : (Duel.playerAt (Duel.cleanup_disconnected_player g k) k).connected
        = false := by
      unfold Duel.playerAt
      rw [hplayers, ListAux.getD_set_self _ _ _ _ hk]
    refine ⟨hconnk, ?_⟩
    intro hall
    have hlen : (Duel.cleanup_disconnected_player g k).players.length
        = g.players.length := by
      rw [hplayers, List.length_set]
    have hscan : Duel.scan_free (Duel.cleanup_disconnected_player g k).players 0
        = some k := by
      have := Duel.scan_free_first (Duel.cleanup_disconnected_player g k).players
        0 k (by rw [hlen]; exact hk) (by exact hconnk) ?_
      · simpa using this
      · intro j hj
        show ((Duel.cleanup_disconnected_player g k).players.getD j default).connected = true
        rw [hplayers, ListAux.getD_set_ne _ _ _ _ _ (by omega)]
        exact hall j (by omega)
    exact Duel.handle_new_connection_assigned hscan

/-- Witness for C8 at a concrete input: in the full manager `gW`
disconnecting player 0 and accepting a new connection reassigns
identity 0. -/
theorem connection_registry_spec_witness :
    (Duel.handle_new_connection (Duel.cleanup_disconnected_player Duel.gW 0)
      5).2.1 = some 0 :=
  ((connection_registry_spec Duel.gW 5).2.2.2.1 0 (by decide)).2 (by decide)

/-- C6: duel illegal-state atomicity.  A `guess` from a participant whose
state is not `PLAYER_TURN`, and a `set_number` from a participant not in
`PLAYER_SETTING` (e.g. one who already set a code and is `PLAYER_READY`),
are each answered with exactly one explicit error message to the offending
client and cause no change to the game state: the session state, the turn
pointer, the ready count, and every participant's sub-state, secret and
attempt count are unchanged (only the sender's activity timestamp is
refreshed by the successful error send). -/
theorem duel_illegal_state_atomic (g : Duel.GameManager) (pid : Nat) (now : Int)
    (hpid : pid < g.players.length)
    (hconn : (Duel.playerAt g pid).connected = true) :
    ((Duel.playerAt g pid).state ≠ .PLAYER_SETTING →
      ∀ n, (Duel.handle_client_message g pid (.set_number n) now).2
            = [(pid, Duel.Msg.error "지금은 숫자를 설정할 수 없습니다.")]
        ∧ (Duel.handle_client_message g pid (.set_number n) now).1.state = g.state
        ∧ (Duel.handle_client_message g pid (.set_number n) now).1.current_turn
            = g.current_turn
        ∧ (Duel.handle_client_message g pid (.set_number n) now).1.players_ready
            = g.players_ready
        ∧ ∀ q,
            (Duel.playerAt (Duel.handle_client_message g pid (.set_number n) now).1 q).state
              = (Duel.playerAt g q).state
            ∧ (Duel.playerAt (Duel.handle_client_message g pid (.set_number n) now).1
                q).secret_number = (Duel.playerAt g q).secret_number
            ∧ (Duel.playerAt (Duel.handle_client_message g pid (.set_number n) now).1
                q).attempts = (Duel.playerAt g q).attempts)
    ∧ ((Duel.playerAt g pid).state ≠ .PLAYER_TURN →
      ∀ gs, (Duel.handle_client_message g pid (.guess gs) now).2
            = [(pid, Duel.Msg.error "지금은 당신의 턴이 아닙니다.")]
        ∧ (Duel.handle_client_message g pid (.guess gs) now).1.state = g.state
        ∧ (Duel.handle_client_message g pid (.guess gs) now).1.current_turn
            = g.current_turn
        ∧ (Duel.handle_client_message g pid (.guess gs) now).1.players_ready
            = g.players_ready
        ∧ ∀ q,
            (Duel.playerAt (Duel.handle_client_message g pid (.guess gs) now).1 q).state
              = (Duel.playerAt g q).state
            ∧ (Duel.playerAt (Duel.handle_client_message g pid (.guess gs) now).1
                q).secret_number = (Duel.playerAt g q).secret_number
            ∧ (Duel.playerAt (Duel.handle_client_message g pid (.guess gs) now).1
                q).attempts = (Duel.playerAt g q).attempts) := by
  have hsend : ∀ m : Duel.Msg, Duel.send_to_player g pid m now
      = ({ g with players := (g.players.set pid
            { Duel.playerAt g pid with last_activity := now }) }, [(pid, m)]) := by
    intro m
    unfold Duel.send_to_player
    rw [if_pos ⟨hpid, hconn⟩]
  have hfields : ∀ q,
      (Duel.playerAt { g with players := (g.players.set pid
          { Duel.playerAt g pid with last_activity := now }) } q).state
        = (Duel.playerAt g q).state
      ∧ (Duel.playerAt { g with players := (g.players.set pid
          { Duel.playerAt g pid with last_activity := now }) } q).secret_number
        = (Duel.playerAt g q).secret_number
      ∧ (Duel.playerAt { g with players := (g.players.set pid
          { Duel.playerAt g pid with last_activity := now }) } q).attempts
        = (Duel.playerAt g q).attempts := by
    intro q
    by_cases hq : pid = q
    · subst hq
      unfold Duel.playerAt
      dsimp only
      rw [ListAux.getD_set_self _ _ _ _ hpid]
      exact ⟨rfl, rfl, rfl⟩
    · unfold Duel.playerAt
      dsimp only
      rw [ListAux.getD_set_ne _ _ _ _ _ hq]
      exact ⟨rfl, rfl, rfl⟩
  constructor
  · intro hstate n
    have hred : Duel.handle_client_message g pid (.set_number n) now
        = Duel.send_to_player g pid
            (.error "지금은 숫자를 설정할 수 없습니다.") now := by
      unfold Duel.handle_client_message
      dsimp only
      rw [if_pos hstate]
    rw [hred, hsend]
    exact ⟨rfl, rfl, rfl, rfl, hfields⟩
  · intro hstate gs
    have hred : Duel.handle_client_message g pid (.guess gs) now
        = Duel.send_to_player g pid
            (.error "지금은 당신의 턴이 아닙니다.") now := by
      unfold Duel.handle_client_message
      dsimp only
      rw [if_pos hstate]
    rw [hred, hsend]
    exact ⟨rfl, rfl, rfl, rfl, hfields⟩

/-- Witness for C6 at a concrete input: in `gW` player 0 (state
`PLAYER_WAITING_TURN`, code already set) sends `set_number` again and gets
the explicit error. -/
theorem duel_illegal_state_atomic_witness :
    (Duel.handle_client_message Duel.gW 0 (.set_number (some "123")) 7).2
      = [(0, Duel.Msg.error "지금은 숫자를 설정할 수 없습니다.")] :=
  ((duel_illegal_state_atomic Duel.gW 0 7 (by decide) (by decide)).1
    (by decide) (some "123")).1
